import Mathlib

/-!
Verification of the Deburger static-analysis core.

This file gives a shallow embedding of the analysis engine
(`src/core/analyzer.ts`, `src/core/rules/*.ts`, `src/core/contextBuilder.ts`)
and proves or refutes the frozen claims about it.

Modelling conventions:
* Babel AST nodes become the inductive `Node`: a node kind, an optional
  name (modelling `node.id?.name ?? node.key?.name` for functions and
  `node.name` for identifiers), an `async` flag, an optional source
  location, and the ordered list of children.  Each child is tagged with
  the field (`Slot`) it occupies in its parent, which models Babel's
  reference checks such as `path.parent.id === path.node`.
* `@babel/traverse` visits every descendant of the root in preorder
  (`Node.visits`), firing at most one visitor per node; enter/exit
  traversal used by the deep-nesting rule is `Node.events`.
* JavaScript machine integers are `Nat` (and `Int` where a counter can go
  negative); `x || d` on an optional numeric config field is
  `orDefault`: both `undefined` and `0` are falsy in JavaScript.
* Fallible operations (the Babel parser, rule execution) are modelled
  with `Option` / `Except`; `Array.prototype.sort` (stable since ES2019)
  is modelled by the stable `List.insertionSort`; `localeCompare` on file
  paths is modelled by lexicographic `String` comparison.
-/

namespace Deburger

/-! ## Data model (`src/core/types.ts`) -/

inductive Severity where
  | error
  | warning
  | info
  deriving DecidableEq, Repr

structure AnalysisIssue where
  file : String
  line : Nat
  column : Nat
  ruleId : String
  message : String
  severity : Severity
  deriving DecidableEq, Repr

/-- `RuleConfig` from `types.ts`: both fields are optional in TypeScript. -/
structure RuleConfig where
  maxFunctionLines : Option Nat
  maxNestingDepth : Option Nat
  deriving DecidableEq, Repr

/-- JavaScript `x || d` for an optional numeric field:
`undefined` and `0` are both falsy. -/
def orDefault (x : Option Nat) (d : Nat) : Nat :=
  match x with
  | none => d
  | some n => if n = 0 then d else n

/-- `DEFAULT_CONFIG` from `analyzer.ts`. -/
def DEFAULT_CONFIG : RuleConfig :=
  { maxFunctionLines := some 80, maxNestingDepth := some 4 }

/-! ## Syntax trees -/

/-- Babel node kinds used by the four rules; every other kind is `Other`. -/
inductive NodeType where
  | VariableDeclarator
  | FunctionDeclaration
  | FunctionExpression
  | ArrowFunctionExpression
  | ClassMethod
  | ObjectMethod
  | Identifier
  | ObjectProperty
  | MemberExpression
  | IfStatement
  | ForStatement
  | ForInStatement
  | ForOfStatement
  | WhileStatement
  | DoWhileStatement
  | SwitchStatement
  | TryStatement
  | CatchClause
  | WithStatement
  | BlockStatement
  | Other
  deriving DecidableEq, Repr

/-- Which field of its parent a child node occupies.  `param` stands for a
position in the parent's `params` array, `other` for any other field. -/
inductive Slot where
  | id
  | key
  | property
  | param
  | body
  | other
  deriving DecidableEq, Repr

/-- `node.loc`: 1-based start/end lines, 0-based start column. -/
structure Loc where
  line : Nat
  column : Nat
  endLine : Nat
  deriving DecidableEq, Repr

inductive Node where
  | mk (ty : NodeType) (name : Option String) (isAsync : Bool)
       (loc : Option Loc) (children : List (Slot × Node))

mutual

/-- Structural equality on nodes, modelling the reference equality
`===` used by the source at points where the compared references always
come from the same tree position. -/
def Node.beq : Node → Node → Bool
  | .mk t1 n1 a1 l1 c1, .mk t2 n2 a2 l2 c2 =>
      t1 == t2 && n1 == n2 && a1 == a2 && l1 == l2 && Node.beqChildren c1 c2

def Node.beqChildren : List (Slot × Node) → List (Slot × Node) → Bool
  | [], [] => true
  | (s1, c1) :: r1, (s2, c2) :: r2 =>
      s1 == s2 && Node.beq c1 c2 && Node.beqChildren r1 r2
  | _, _ => false

end

instance : BEq Node := ⟨Node.beq⟩

def Node.ty : Node → NodeType
  | .mk t _ _ _ _ => t

def Node.name : Node → Option String
  | .mk _ n _ _ _ => n

def Node.isAsync : Node → Bool
  | .mk _ _ a _ _ => a

def Node.loc : Node → Option Loc
  | .mk _ _ _ l _ => l

def Node.children : Node → List (Slot × Node)
  | .mk _ _ _ _ c => c

/-- One visitor invocation: the node together with its parent's kind and
the slot it occupies in the parent (enough to model Babel's
`path.parent.type` and `path.parent.field === path.node` checks). -/
structure Visit where
  parentTy : NodeType
  slot : Slot
  node : Node

mutual

/-- Preorder visitor firing order of `@babel/traverse`. -/
def visitsNode (pty : NodeType) (s : Slot) : Node → List Visit
  | .mk ty nm a l cs => ⟨pty, s, .mk ty nm a l cs⟩ :: visitsChildren ty cs

def visitsChildren (pty : NodeType) : List (Slot × Node) → List Visit
  | [] => []
  | (s, c) :: rest => visitsNode pty s c ++ visitsChildren pty rest

end

/-- All visits of a tree, root first (the root of a parsed file is the
Babel `File` node, which none of the rules' visitors match). -/
def Node.visits (t : Node) : List Visit :=
  visitsNode .Other .other t

/-- Enter/exit events for the stateful enter/exit traversal used by the
deep-nesting rule. -/
inductive TEvent where
  | enter (n : Node)
  | exited (n : Node)

mutual

def eventsNode : Node → List TEvent
  | .mk ty nm a l cs =>
      .enter (.mk ty nm a l cs) :: (eventsChildren cs ++ [.exited (.mk ty nm a l cs)])

def eventsChildren : List (Slot × Node) → List TEvent
  | [] => []
  | (_, c) :: rest => eventsNode c ++ eventsChildren rest

end

def Node.events (t : Node) : List TEvent :=
  eventsNode t

/-! ## JavaScript string primitives

The JavaScript string operations used by the source are modelled
directly on the `List Char` view of `String` (the built-in versions use
byte-position loops that are equivalent but inconvenient to reason
about). -/

/-- `String.prototype.startsWith`. -/
def jsStartsWith (s pre : String) : Bool :=
  pre.toList.isPrefixOf s.toList

/-- `String.prototype.trim` (strip leading and trailing whitespace). -/
def jsTrim (s : String) : String :=
  String.mk (((s.toList.dropWhile Char.isWhitespace).reverse.dropWhile
    Char.isWhitespace).reverse)

/-- The empty-string test (used for JavaScript string truthiness). -/
def jsIsEmpty (s : String) : Bool :=
  s.toList.isEmpty

/-- `String.prototype.split` with a one-character separator: keeps empty
fragments, including leading and trailing ones. -/
def jsSplitAux (c : Char) : List Char → List Char → List String
  | [], cur => [String.mk cur.reverse]
  | x :: rest, cur =>
      if x == c then String.mk cur.reverse :: jsSplitAux c rest []
      else jsSplitAux c rest (x :: cur)

def jsSplitChar (c : Char) (s : String) : List String :=
  jsSplitAux c s.toList []

/-- The child occupying the `id` field of a node (`path.node.id`). -/
def Node.idChild (n : Node) : Option Node :=
  (n.children.find? (fun p => p.1 == Slot.id)).map (·.2)

/-- The child occupying the `body` field of a node (`path.node.body`). -/
def Node.bodyChild (n : Node) : Option Node :=
  (n.children.find? (fun p => p.1 == Slot.body)).map (·.2)

/-- The children occupying the `params` array of a node (`path.node.params`). -/
def Node.params (n : Node) : List Node :=
  n.children.filterMap (fun p => if p.1 == Slot.param then some p.2 else none)

/-! ## Unused-binding rule (`src/core/rules/unusedVars.ts`) -/

/-- One entry of the rule's `declaredVars` map. -/
structure VarInfo where
  node : Node
  used : Bool

/-- `Map.set`: overwrites in place if the key exists (keeping its original
insertion position, as a JavaScript `Map` does), appends otherwise. -/
def mapSet (m : List (String × VarInfo)) (k : String) (v : VarInfo) :
    List (String × VarInfo) :=
  if m.any (fun p => p.1 == k) then
    m.map (fun p => if p.1 == k then (k, v) else p)
  else
    m ++ [(k, v)]

/-- `Map.get`. -/
def mapGet (m : List (String × VarInfo)) (k : String) : Option VarInfo :=
  (m.find? (fun p => p.1 == k)).map (·.2)

/-- `varInfo.used = true`: mutates the entry aliased by `Map.get`. -/
def mapMarkUsed (m : List (String × VarInfo)) (k : String) :
    List (String × VarInfo) :=
  m.map (fun p => if p.1 == k then (p.1, ⟨p.2.node, true⟩) else p)

/-- The parameter-registration bodies of the `FunctionDeclaration`,
`ArrowFunctionExpression` and `FunctionExpression` visitors:
`path.node.params.forEach(param => ...)`. -/
def registerParams (m : List (String × VarInfo)) (n : Node) :
    List (String × VarInfo) :=
  n.params.foldl
    (fun m p =>
      if p.ty == .Identifier then
        match p.name with
        | some nm => if jsStartsWith nm "_" then m else mapSet m nm ⟨p, false⟩
        | none => m
      else m)
    m

/-- One visitor invocation of `unusedVarsRule`'s traversal. -/
def unusedStep (m : List (String × VarInfo)) (v : Visit) :
    List (String × VarInfo) :=
  match v.node.ty with
  | .VariableDeclarator =>
      -- `if (path.node.id.type === 'Identifier')`
      match v.node.idChild with
      | some idn =>
          if idn.ty == .Identifier then
            match idn.name with
            | some nm => if jsStartsWith nm "_" then m else mapSet m nm ⟨idn, false⟩
            | none => m
          else m
      | none => m
  | .FunctionDeclaration => registerParams m v.node
  | .ArrowFunctionExpression => registerParams m v.node
  | .FunctionExpression => registerParams m v.node
  | .Identifier =>
      -- Skip if it is a declaration or property key:
      -- `path.parent.type === '...' && path.parent.field === path.node`.
      let skip :=
        (v.parentTy == .VariableDeclarator && v.slot == .id) ||
        (v.parentTy == .FunctionDeclaration && v.slot == .id) ||
        (v.parentTy == .ObjectProperty && v.slot == .key) ||
        (v.parentTy == .MemberExpression && v.slot == .property)
      if skip then m
      else
        match v.node.name with
        | some nm => if (mapGet m nm).isSome then mapMarkUsed m nm else m
        | none => m
  | _ => m

/-- `unusedVarsRule.run`. -/
def unusedVars_run (filePath : String) (ast : Node) : List AnalysisIssue :=
  let declaredVars := ast.visits.foldl unusedStep []
  declaredVars.filterMap (fun p =>
    if p.2.used then none
    else
      match p.2.node.loc with
      | some l =>
          some { file := filePath, line := l.line, column := l.column,
                 ruleId := "unused-vars",
                 message := "Variable \x27" ++ p.1 ++ "\x27 is declared but never used",
                 severity := .warning }
      | none => none)

/-! ## Long-function rule (`src/core/rules/longFunction.ts`) -/

/-- The node kinds handled by the five function visitors
(`FunctionDeclaration`, `FunctionExpression`, `ArrowFunctionExpression`,
`ClassMethod`, `ObjectMethod`), which is also Babel's `isFunction`. -/
def isFunctionLikeType : NodeType → Bool
  | .FunctionDeclaration | .FunctionExpression | .ArrowFunctionExpression
  | .ClassMethod | .ObjectMethod => true
  | _ => false

/-- `checkFunctionLength`, returning the issue it pushes (if any). -/
def checkFunctionLength (filePath : String) (maxLines : Nat) (n : Node) :
    Option AnalysisIssue :=
  match n.loc with
  | none => none
  | some l =>
      let startLine := l.line
      let endLine := l.endLine
      let lineCount := endLine - startLine + 1
      if lineCount > maxLines then
        some { file := filePath, line := startLine, column := l.column,
               ruleId := "long-function",
               message := "Function \x27" ++ (n.name.getD "anonymous function") ++
                 "\x27 is " ++ toString lineCount ++ " lines long (max " ++
                 toString maxLines ++ ")",
               severity := .warning }
      else none

/-- `longFunctionRule.run`. -/
def longFunction_run (filePath : String) (config : RuleConfig) (ast : Node) :
    List AnalysisIssue :=
  let maxLines := orDefault config.maxFunctionLines 80
  ast.visits.filterMap (fun v =>
    if isFunctionLikeType v.node.ty then checkFunctionLength filePath maxLines v.node
    else none)

/-! ## Async-without-try/catch rule (`src/core/rules/asyncNoTryCatch.ts`) -/

mutual

/-- The `TryStatement` sub-visitor of `checkForTryCatch`: does the subtree
rooted at this child contain a `TryStatement` whose
`getFunctionParent()` is the function node the scan started from?  A try
statement below a nested function-like node has that nested function as
its function parent, so the scan never descends below function-like
nodes. -/
def hasTryNode : Node → Bool
  | .mk ty _nm _a _l cs =>
      if ty == .TryStatement then true
      else if isFunctionLikeType ty then false
      else hasTryChildren cs

def hasTryChildren : List (Slot × Node) → Bool
  | [] => false
  | (_, c) :: rest => hasTryNode c || hasTryChildren rest

end

/-- `checkForTryCatch`, returning the issue it pushes (if any). -/
def checkForTryCatch (filePath : String) (n : Node) : Option AnalysisIssue :=
  match n.loc with
  | none => none
  | some l =>
      let hasTryCatch : Bool :=
        match n.bodyChild with
        | some b => if b.ty == .BlockStatement then hasTryChildren n.children else false
        | none => false
      if hasTryCatch then none
      else
        some { file := filePath, line := l.line, column := l.column,
               ruleId := "async-no-try-catch",
               message := "Async function \x27" ++ (n.name.getD "async function") ++
                 "\x27 should have try/catch error handling",
               severity := .warning }

/-- `asyncNoTryCatchRule.run`. -/
def asyncNoTryCatch_run (filePath : String) (ast : Node) : List AnalysisIssue :=
  ast.visits.filterMap (fun v =>
    if isFunctionLikeType v.node.ty && v.node.isAsync then
      checkForTryCatch filePath v.node
    else none)

/-! ## Deep-nesting rule (`src/core/rules/deepNesting.ts`) -/

/-- `isNestingNode`. -/
def isNestingNode : NodeType → Bool
  | .IfStatement | .ForStatement | .ForInStatement | .ForOfStatement
  | .WhileStatement | .DoWhileStatement | .SwitchStatement
  | .TryStatement | .CatchClause | .WithStatement => true
  | _ => false

/-- `getNodeDescription`. -/
def getNodeDescription : NodeType → String
  | .IfStatement => "If statement"
  | .ForStatement | .ForInStatement | .ForOfStatement => "For loop"
  | .WhileStatement | .DoWhileStatement => "While loop"
  | .SwitchStatement => "Switch statement"
  | .TryStatement => "Try statement"
  | .CatchClause => "Catch clause"
  | _ => "Block"

/-- The mutable state of `deepNestingRule.run`'s traversal. -/
structure DeepState where
  currentDepth : Nat
  depthStack : List (Node × Nat)
  issues : List AnalysisIssue

/-- The `enter`/`exit` handlers of `deepNestingRule.run`. -/
def deepStep (filePath : String) (maxDepth : Nat) (st : DeepState)
    (e : TEvent) : DeepState :=
  match e with
  | .enter n =>
      if isNestingNode n.ty then
        let d := st.currentDepth + 1
        let issues :=
          match n.loc with
          | some l =>
              if d > maxDepth then
                st.issues ++
                  [{ file := filePath, line := l.line, column := l.column,
                     ruleId := "deep-nesting",
                     message := getNodeDescription n.ty ++ " has nesting depth " ++
                       toString d ++ " (max " ++ toString maxDepth ++ ")",
                     severity := .warning }]
              else st.issues
          | none => st.issues
        ⟨d, (n, d) :: st.depthStack, issues⟩
      else st
  | .exited n =>
      if isNestingNode n.ty then
        match st.depthStack with
        | [] => st  -- `pop()` on an empty stack yields `undefined`: no decrement
        | (m, _) :: rest =>
            if m == n then ⟨st.currentDepth - 1, rest, st.issues⟩
            else ⟨st.currentDepth, rest, st.issues⟩
      else st

/-- `deepNestingRule.run`. -/
def deepNesting_run (filePath : String) (config : RuleConfig) (ast : Node) :
    List AnalysisIssue :=
  let maxDepth := orDefault config.maxNestingDepth 4
  (ast.events.foldl (deepStep filePath maxDepth) ⟨0, [], []⟩).issues

/-! ## Analysis orchestrator (`src/core/analyzer.ts`) -/

structure FileInput where
  path : String
  text : String

/-- The `Rule` interface.  A rule "may throw on unexpected tree shapes"
(spec §4.2), so a run is modelled as `Except`: `.error` is a thrown
exception, which `analyzeFile` catches and logs. -/
structure ARule where
  run : Node → String → String → RuleConfig → Except String (List AnalysisIssue)

/-- `analyzeFile`: parse (`parseCode` returns `null` on unrecoverable
failure, modelled by the `parse` argument returning `none`), then run
every registered rule, catching (and discarding from the result) any
rule-level exception.  `analyzeFile` itself never throws: every failure
path returns a list. -/
def analyzeFile (parse : String → String → Option Node) (rules : List ARule)
    (file : FileInput) (config : RuleConfig) : List AnalysisIssue :=
  match parse file.text file.path with
  | none => []  -- failed to parse, skip this file
  | some ast =>
      rules.foldl
        (fun issues rule =>
          match rule.run ast file.path file.text config with
          | .ok ruleIssues => issues ++ ruleIssues
          | .error _ => issues)  -- `console.warn(...)`: logged, not propagated
        []

/-- `analyzeFiles`: iterate the files in input order, appending each
file's issues.  The surrounding `try/catch` in the source never fires
because `analyzeFile` already absorbs parse and rule failures, and the
model makes that explicit: `analyzeFiles` is a total function. -/
def analyzeFiles (parse : String → String → Option Node) (rules : List ARule)
    (files : List FileInput) (config : RuleConfig) : List AnalysisIssue :=
  files.foldl (fun allIssues file => allIssues ++ analyzeFile parse rules file config) []

/-- The four rules in their fixed registration order (`RULES` in
`analyzer.ts`).  The embedded rule bodies are total, so each wraps its
result in `.ok`. -/
def unusedVarsRule : ARule :=
  ⟨fun ast filePath _fileText _config => .ok (unusedVars_run filePath ast)⟩

def longFunctionRule : ARule :=
  ⟨fun ast filePath _fileText config => .ok (longFunction_run filePath config ast)⟩

def asyncNoTryCatchRule : ARule :=
  ⟨fun ast filePath _fileText _config => .ok (asyncNoTryCatch_run filePath ast)⟩

def deepNestingRule : ARule :=
  ⟨fun ast filePath _fileText config => .ok (deepNesting_run filePath config ast)⟩

def RULES : List ARule :=
  [unusedVarsRule, longFunctionRule, asyncNoTryCatchRule, deepNestingRule]

/-! ## Top-issue extraction (`src/core/contextBuilder.ts`, `getTopIssues`) -/

/-- `severityOrder = { error: 0, warning: 1, info: 2 }`. -/
def severityRank : Severity → Nat
  | .error => 0
  | .warning => 1
  | .info => 2

/-- The total preorder induced by `getTopIssues`'s comparator: severity
rank first, then the file path (`localeCompare` modelled as lexicographic
comparison). -/
def issueLe (a b : AnalysisIssue) : Prop :=
  severityRank a.severity < severityRank b.severity ∨
    (severityRank a.severity = severityRank b.severity ∧ a.file ≤ b.file)

instance : DecidableRel issueLe := fun a b => by
  unfold issueLe; infer_instance

instance : IsTotal AnalysisIssue issueLe where
  total a b := by
    rcases Nat.lt_trichotomy (severityRank a.severity) (severityRank b.severity) with h | h | h
    · exact Or.inl (Or.inl h)
    · rcases le_total a.file b.file with hf | hf
      · exact Or.inl (Or.inr ⟨h, hf⟩)
      · exact Or.inr (Or.inr ⟨h.symm, hf⟩)
    · exact Or.inr (Or.inl h)

instance : IsTrans AnalysisIssue issueLe where
  trans a b c hab hbc := by
    rcases hab with h1 | ⟨h1, hf1⟩
    · rcases hbc with h2 | ⟨h2, _⟩
      · exact Or.inl (h1.trans h2)
      · exact Or.inl (h2 ▸ h1)
    · rcases hbc with h2 | ⟨h2, hf2⟩
      · exact Or.inl (h1 ▸ h2)
      · exact Or.inr ⟨h1.trans h2, hf1.trans hf2⟩

/-- `issues.sort(comparator)`: `Array.prototype.sort` is stable (ES2019),
and a stable sort by a total preorder is uniquely determined, so it is
modelled by the stable `List.insertionSort`. -/
def sortIssues (issues : List AnalysisIssue) : List AnalysisIssue :=
  List.insertionSort issueLe issues

/-- `getTopIssues`: `.sort()` sorts the caller's array in place and
returns it, then `.slice(0, count)` copies the prefix.  The first
component is the returned top list, the second is the state of the
caller's array after the call (the mutation). -/
def getTopIssues (issues : List AnalysisIssue) (count : Nat) :
    List AnalysisIssue × List AnalysisIssue :=
  let sorted := sortIssues issues
  (sorted.take count, sorted)

/-! ## String helpers for the summariser and trimmer

JavaScript string operations are modelled on the `List Char` view of
`String`; the handful of regular expressions in `contextBuilder.ts` are
small enough to be modelled by direct matchers. -/

/-- `String.prototype.includes`. -/
def listIncludes (pat : List Char) : List Char → Bool
  | [] => pat.isEmpty
  | c :: rest => pat.isPrefixOf (c :: rest) || listIncludes pat rest

def strIncludes (s pat : String) : Bool :=
  listIncludes pat.toList s.toList

/-- JavaScript `\w`. -/
def isWordChar (c : Char) : Bool :=
  c.isAlphanum || c == '_'

/-- Strip a literal word followed by `\s+` (one or more whitespace
characters, greedily consumed); `none` if the word or the whitespace is
missing. -/
def stripWordWs (w : String) (cs : List Char) : Option (List Char) :=
  if w.toList.isPrefixOf cs then
    let rest := cs.drop w.toList.length
    match rest with
    | c :: _ => if c.isWhitespace then some (rest.dropWhile Char.isWhitespace) else none
    | [] => none
  else none

/-- `/^(export\s+)?(async\s+)?function\s+\w+/.test(s)`. -/
def matchFunctionSig (s : String) : Bool :=
  let cs := s.toList
  let cs := (stripWordWs "export" cs).getD cs
  let cs := (stripWordWs "async" cs).getD cs
  match stripWordWs "function" cs with
  | some rest =>
      match rest with
      | c :: _ => isWordChar c
      | [] => false
  | none => false

/-- `/^(export\s+)?class\s+\w+/.test(s)`. -/
def matchClassDecl (s : String) : Bool :=
  let cs := s.toList
  let cs := (stripWordWs "export" cs).getD cs
  match stripWordWs "class" cs with
  | some rest =>
      match rest with
      | c :: _ => isWordChar c
      | [] => false
  | none => false

/-- `/^(export\s+)?const\s+\w+\s*=.*=>/.test(s)`. -/
def matchArrowConst (s : String) : Bool :=
  let cs := s.toList
  let cs := (stripWordWs "export" cs).getD cs
  match stripWordWs "const" cs with
  | some rest =>
      match rest.takeWhile isWordChar with
      | [] => false
      | _ :: _ =>
          let rest := (rest.dropWhile isWordChar).dropWhile Char.isWhitespace
          match rest with
          | '=' :: tail => listIncludes ['=', '>'] tail
          | _ => false
  | none => false

/-- `line.replace(/^\/\*+\s*/, '')`. -/
def stripLeadingSlashStars (s : String) : String :=
  match s.toList with
  | '/' :: '*' :: rest => String.mk ((rest.dropWhile (· == '*')).dropWhile Char.isWhitespace)
  | _ => s

/-- `line.replace(/\*+\/$/, '')`. -/
def stripTrailingStarsSlash (s : String) : String :=
  match s.toList.reverse with
  | '/' :: rest =>
      match rest.takeWhile (· == '*') with
      | [] => s
      | _ :: _ => String.mk ((rest.dropWhile (· == '*')).reverse)
  | _ => s

/-- The leftmost-match cut of `line.replace(/\*+\/.*$/, '')`. -/
def cutList : List Char → List Char
  | [] => []
  | '*' :: rest =>
      if (('*' :: rest).dropWhile (· == '*')).headD ' ' == '/' then []
      else '*' :: cutList rest
  | c :: rest => c :: cutList rest

def cutAtStarsSlash (s : String) : String :=
  String.mk (cutList s.toList)

/-- `line.replace(/^\*\s*/, '')` (a single leading star). -/
def stripLeadingStar (s : String) : String :=
  match s.toList with
  | '*' :: rest => String.mk (rest.dropWhile Char.isWhitespace)
  | _ => s

/-- `line.replace(/^\/\/\s*/, '')`. -/
def stripLeadingSlashes (s : String) : String :=
  match s.toList with
  | '/' :: '/' :: rest => String.mk (rest.dropWhile Char.isWhitespace)
  | _ => s

/-- `text.split(/[.!?]+/)`: runs of sentence punctuation are single
separators; JavaScript keeps leading/trailing empty fragments. -/
def splitSentences : List Char → List Char → Bool → List String
  | [], cur, _ => [String.mk cur.reverse]
  | c :: rest, cur, prevDelim =>
      if c == '.' || c == '!' || c == '?' then
        if prevDelim then splitSentences rest cur true
        else String.mk cur.reverse :: splitSentences rest [] true
      else splitSentences rest (c :: cur) false

def splitSentenceDelims (s : String) : List String :=
  splitSentences s.toList [] false

/-- `path.basename` (POSIX separator). -/
def basename (p : String) : String :=
  (jsSplitChar '/' p).getLastD p

/-! ## File summaries (`src/core/contextBuilder.ts`) -/

/-- The loop body of `extractHeaderComment`, iterating over the first
`min(15, lines.length)` (pre-`take`n) lines with the `inComment` flag and
the accumulated comment lines; returning without a recursive call models
`break`. -/
def headerLoop : List String → Bool → List String → List String
  | [], _, acc => acc
  | l :: rest, inComment, acc =>
      let line := jsTrim l
      if !inComment && jsIsEmpty line then headerLoop rest inComment acc
      else if jsStartsWith line "/**" || jsStartsWith line "/*" then
        let content := jsTrim (stripTrailingStarsSlash (stripLeadingSlashStars line))
        headerLoop rest true (if jsIsEmpty content then acc else acc ++ [content])
      else if inComment then
        if strIncludes line "*/" then
          let content := jsTrim (stripLeadingStar (cutAtStarsSlash line))
          if !jsIsEmpty content && !jsStartsWith content "@" then acc ++ [content] else acc
        else
          let content := jsTrim (stripLeadingStar line)
          headerLoop rest inComment
            (if !jsIsEmpty content && !jsStartsWith content "@" then acc ++ [content] else acc)
      else if jsStartsWith line "//" then
        let content := jsTrim (stripLeadingSlashes line)
        headerLoop rest inComment (if jsIsEmpty content then acc else acc ++ [content])
      else if !jsIsEmpty line then acc
      else headerLoop rest inComment acc

/-- `extractHeaderComment`. -/
def extractHeaderComment (lines : List String) : Option String :=
  let commentLines := headerLoop (lines.take 15) false []
  if commentLines.length > 0 then
    let text := String.intercalate " " commentLines
    let sentences := (splitSentenceDelims text).map jsTrim |>.filter (fun s => !jsIsEmpty s)
    some (String.intercalate ". " (sentences.take 3) ++ ".")
  else none

/-- `generateFileSummary`. -/
def generateFileSummary (fileText : String) (filePath : String) : String :=
  let lines := jsSplitChar (Char.ofNat 10) fileText
  let fileName := basename filePath
  match extractHeaderComment lines with
  | some headerSummary => headerSummary
  | none =>
      let preview := lines.take 20
      let importLines := preview.filter (fun line =>
        jsStartsWith (jsTrim line) "import " || jsStartsWith (jsTrim line) "require(" ||
        jsStartsWith (jsTrim line) "from ")
      let exportLines := preview.filter (fun line =>
        strIncludes line "export " || strIncludes line "module.exports")
      let declarations := preview.filter (fun line =>
        matchFunctionSig (jsTrim line) || matchClassDecl (jsTrim line) ||
        matchArrowConst (jsTrim line))
      let summary := fileName ++ ": "
      let summary :=
        if declarations.length > 0 then
          let funcOrClass := if strIncludes (declarations.headD "") "class" then "class" else "function"
          let s := summary ++ "Defines " ++ funcOrClass
          let s := if exportLines.length > 0 then s ++ " and exports" else s
          s ++ " functionality"
        else if exportLines.length > 0 then summary ++ "Exports module functionality"
        else if importLines.length > 0 then summary ++ "Imports and configures dependencies"
        else summary ++ "Contains code and logic"
      let summary :=
        if importLines.length > 2 then
          summary ++ ". Uses " ++ toString importLines.length ++ " external dependencies"
        else summary
      summary ++ "."

structure FileSummary where
  path : String
  brief : String
  deriving DecidableEq, Repr

structure ProjectContext where
  files : List FileSummary
  topIssues : List AnalysisIssue
  dependencies : List String
  deriving DecidableEq, Repr

/-- `buildContext`.  The `dependencies` argument is the awaited result of
`extractDependencies(projectRoot)` — file I/O at the model boundary —
or `[]` when no `projectRoot` is supplied.  Because `getTopIssues` sorts
the caller's `issues` array in place, the model returns the post-call
state of that array alongside the context. -/
def buildContext (files : List FileInput) (issues : List AnalysisIssue)
    (dependencies : List String) : ProjectContext × List AnalysisIssue :=
  let fileSummaries := files.map (fun f => FileSummary.mk f.path (generateFileSummary f.text f.path))
  let (topIssues, issuesAfter) := getTopIssues issues 5
  ({ files := fileSummaries, topIssues := topIssues, dependencies := dependencies },
   issuesAfter)

/-! ## Token-budget trimmer (`trimForTokens` in `src/core/contextBuilder.ts`) -/

def openBrace : Char := Char.ofNat 123

def closeBrace : Char := Char.ofNat 125

/-- `(line.match(/c/g) || []).length` as an integer. -/
def countChar (s : String) (c : Char) : Int :=
  ((s.toList.filter (· == c)).length : Int)

/-- The per-line classification state of `trimForTokens`. -/
structure TrimState where
  imports : List String
  typeDeclarations : List String
  functionSignatures : List String
  exports : List String
  comments : List String
  inBlockComment : Bool
  inFunction : Bool
  braceDepth : Int

def initTrimState : TrimState :=
  ⟨[], [], [], [], [], false, false, 0⟩

/-- One iteration of `trimForTokens`' line loop. -/
def trimStep (st : TrimState) (line : String) : TrimState :=
  let trimmed := jsTrim line
  let inBlock := if jsStartsWith trimmed "/*" then true else st.inBlockComment
  let inBlock := if strIncludes trimmed "*/" then false else inBlock
  if (jsStartsWith trimmed "//" || inBlock) && st.comments.length < 3 then
    { st with inBlockComment := inBlock, comments := st.comments ++ [line] }
  else if jsStartsWith trimmed "import " || jsStartsWith trimmed "require(" then
    { st with inBlockComment := inBlock, imports := st.imports ++ [line] }
  else if jsStartsWith trimmed "export interface " || jsStartsWith trimmed "export type " ||
      jsStartsWith trimmed "interface " || jsStartsWith trimmed "type " then
    { st with inBlockComment := inBlock, typeDeclarations := st.typeDeclarations ++ [line] }
  else if matchFunctionSig trimmed || matchArrowConst trimmed then
    { st with
      inBlockComment := inBlock
      functionSignatures := st.functionSignatures ++ [line]
      inFunction := true
      braceDepth := 0 }
  else
    let (inFn, bd) :=
      if st.inFunction then
        let bd := st.braceDepth + countChar line openBrace - countChar line closeBrace
        (if bd == 0 then false else st.inFunction, bd)
      else (st.inFunction, st.braceDepth)
    if jsStartsWith trimmed "export " && st.exports.length < 5 then
      { st with
        inBlockComment := inBlock
        inFunction := inFn
        braceDepth := bd
        exports := st.exports ++ [line] }
    else
      { st with inBlockComment := inBlock, inFunction := inFn, braceDepth := bd }

def truncationMarker : String :=
  "\n\n// ... truncated ..."

/-- The classification plus reassembly part of `trimForTokens` (the
"structural abridgement" built before the final length check). -/
def reassemble (text : String) : String :=
  let lines := jsSplitChar (Char.ofNat 10) text
  let st := lines.foldl trimStep initTrimState
  let parts : List String := []
  let parts := if st.comments.length > 0 then parts ++ [String.intercalate "\n" st.comments] else parts
  let parts :=
    if st.imports.length > 0 then
      let parts := parts ++ [String.intercalate "\n" (st.imports.take 10)]
      if st.imports.length > 10 then
        parts ++ ["// ... and " ++ toString (st.imports.length - 10) ++ " more imports"]
      else parts
    else parts
  let parts :=
    if st.typeDeclarations.length > 0 then
      parts ++ ["", String.intercalate "\n" (st.typeDeclarations.take 5)]
    else parts
  let parts :=
    if st.functionSignatures.length > 0 then
      let parts := parts ++ ["", String.intercalate "\n" (st.functionSignatures.take 8)]
      if st.functionSignatures.length > 8 then
        parts ++ ["// ... and " ++ toString (st.functionSignatures.length - 8) ++ " more functions"]
      else parts
    else parts
  String.intercalate "\n" parts

/-- `s.substring(0, n)`: JavaScript clamps a negative end index to 0,
which `Nat` subtraction at the call site already models. -/
def jsSubstring (s : String) (n : Nat) : String :=
  String.mk (s.toList.take n)

/-- `trimForTokens`. -/
def trimForTokens (text : String) (maxTokens : Nat) : String :=
  let maxChars := maxTokens * 4
  if text.length ≤ maxChars then text
  else
    let result := reassemble text
    if result.length > maxChars then
      jsSubstring result (maxChars - 20) ++ truncationMarker
    else result

/-! ## Concrete syntax-tree builders for the claims

These build the `Node` trees of the concrete programs that the claims
are exercised on (the tree shapes Babel produces for them). -/

def identNode (nm : String) (line col : Nat) : Node :=
  .mk .Identifier (some nm) false (some ⟨line, col, line⟩) []

def blockOf (stmts : List Node) : Node :=
  .mk .BlockStatement none false none (stmts.map (fun s => (Slot.other, s)))

/-- A `File` node wrapping a `Program` node wrapping the statements. -/
def fileProgram (stmts : List Node) : Node :=
  .mk .Other none false none
    [(Slot.other, .mk .Other none false none (stmts.map (fun s => (Slot.other, s))))]

/-- A function-like node with the given parameters and block body. -/
def mkFn (ty : NodeType) (nm : Option String) (isAsync : Bool) (loc : Option Loc)
    (params bodyStmts : List Node) : Node :=
  .mk ty nm isAsync loc
    ((params.map (fun p => (Slot.param, p))) ++ [(Slot.body, blockOf bodyStmts)])

/-- The tree of `function f(a) { }`: a declared, never referenced,
non-underscore parameter `a`. -/
def unusedParamFile : Node :=
  fileProgram
    [.mk .FunctionDeclaration (some "f") false (some ⟨1, 0, 1⟩)
      [(Slot.id, identNode "f" 1 9), (Slot.param, identNode "a" 1 11),
       (Slot.body, blockOf [])]]

/-! ## Claim-side descriptions

Definitions below formalise the wording of individual claims, to be
compared with the behaviour of the embedded source functions. -/

/-- The control-flow kinds the deep-nesting claim quantifies over
(if/for/while/switch/try/catch). -/
def nestingChainKinds : List NodeType :=
  [.IfStatement, .ForStatement, .ForInStatement, .ForOfStatement,
   .WhileStatement, .DoWhileStatement, .SwitchStatement, .TryStatement,
   .CatchClause]

/-- A straight-line nesting chain: node `i` (1-based, at line `i`,
column 0) directly contains node `i+1`; the innermost node contains a
plain non-nesting statement. -/
def mkChain : List NodeType → Nat → Node
  | [], line => .mk .Other none false (some ⟨line, 0, line⟩) []
  | k :: ks, line => .mk k none false (some ⟨line, 0, line⟩) [(Slot.other, mkChain ks (line + 1))]

/-- The deep-nesting issue the claim predicts for a chain node of kind
`k` at line `line` entered at depth `depth` against threshold `maxDepth`. -/
def chainIssueAt (filePath : String) (maxDepth : Nat) (k : NodeType)
    (line depth : Nat) : AnalysisIssue :=
  { file := filePath, line := line, column := 0, ruleId := "deep-nesting",
    message := getNodeDescription k ++ " has nesting depth " ++ toString depth ++
      " (max " ++ toString maxDepth ++ ")",
    severity := .warning }

/-- Claim C2's prediction for a chain `ks` starting at depth 1/line 1:
one issue per level beyond the threshold, at that level's node, citing
its kind label and its entry depth. -/
def chainExpected (filePath : String) (maxDepth : Nat) (ks : List NodeType) :
    List AnalysisIssue :=
  (List.range ks.length).filterMap (fun j =>
    if maxDepth < j + 1 then
      some (chainIssueAt filePath maxDepth (ks.getD j .Other) (j + 1) (j + 1))
    else none)

/-- Issues produced along a chain whose head is entered at depth `d + 1`
and line `line` (proof-side generalisation of `chainExpected`). -/
def chainExpectedFrom (filePath : String) (maxDepth : Nat) :
    Nat → Nat → List NodeType → List AnalysisIssue
  | _, _, [] => []
  | d, line, k :: ks =>
      (if maxDepth < d + 1 then [chainIssueAt filePath maxDepth k line (d + 1)] else []) ++
        chainExpectedFrom filePath maxDepth (d + 1) (line + 1) ks

/-- Claim C3's prediction for one function-like node: exactly one
warning (naming the function, with the actual line count and the
threshold in the message) when `endLine - startLine + 1` exceeds the
threshold, none otherwise. -/
def longFunctionExpected (filePath : String) (maxLines : Nat) (n : Node) :
    Option AnalysisIssue :=
  match n.loc with
  | none => none
  | some l =>
      if l.endLine - l.line + 1 > maxLines then
        some { file := filePath, line := l.line, column := l.column,
               ruleId := "long-function",
               message := "Function \x27" ++ (n.name.getD "anonymous function") ++
                 "\x27 is " ++ toString (l.endLine - l.line + 1) ++
                 " lines long (max " ++ toString maxLines ++ ")",
               severity := .warning }
      else none

/-- The tree of a 50-line `function big() { ... }` (lines 1–50). -/
def longFnFile : Node :=
  fileProgram [mkFn .FunctionDeclaration (some "big") false (some ⟨1, 0, 50⟩) [] []]

/-- Claim C4's notion of a directly-enclosing recovery construct: the
node's block body contains a try statement whose directly enclosing
function is exactly this node (one not separated from it by another
function-like node). -/
def hasDirectRecovery (n : Node) : Bool :=
  (match n.bodyChild with
   | some b => b.ty == .BlockStatement
   | none => false) && hasTryChildren n.children

/-- The issue claim C4 predicts for an unrecovered async function. -/
def asyncIssueOf (filePath : String) (n : Node) (l : Loc) : AnalysisIssue :=
  { file := filePath, line := l.line, column := l.column,
    ruleId := "async-no-try-catch",
    message := "Async function \x27" ++ (n.name.getD "async function") ++
      "\x27 should have try/catch error handling",
    severity := .warning }

/-- Claim C4's prediction: exactly one warning per asynchronous
function-like node (with a source location) that has no
directly-enclosing recovery construct, zero per recovered one, in
traversal order. -/
def asyncExpected (filePath : String) (t : Node) : List AnalysisIssue :=
  (t.visits.map Visit.node).filterMap (fun n =>
    if isFunctionLikeType n.ty && n.isAsync then
      match n.loc with
      | some l => if hasDirectRecovery n then none else some (asyncIssueOf filePath n l)
      | none => none
    else none)

/-! # Theorems -/

/-! ## Shared helper lemmas -/

mutual

theorem Node.beq_refl : (n : Node) → Node.beq n n = true
  | .mk t nm a l cs => by
      rw [Node.beq]
      simp [Node.beqChildren_refl cs]

theorem Node.beqChildren_refl : (cs : List (Slot × Node)) → Node.beqChildren cs cs = true
  | [] => by rw [Node.beqChildren]
  | (s, c) :: r => by
      rw [Node.beqChildren]
      simp [Node.beq_refl c, Node.beqChildren_refl r]

end

theorem Node.beq_self (n : Node) : (n == n) = true :=
  Node.beq_refl n

/-- `foldl` with an appending body collects the pieces in order. -/
theorem foldl_collect {α β : Type} (g : α → List β) :
    ∀ (l : List α) (acc : List β),
      l.foldl (fun a x => a ++ g x) acc = acc ++ l.flatMap g
  | [], acc => by simp
  | x :: l, acc => by
      simp only [List.foldl_cons, List.flatMap_cons]
      rw [foldl_collect g l (acc ++ g x)]
      simp [List.append_assoc]

/-- `analyzeFiles` is the in-order concatenation of per-file results. -/
theorem analyzeFiles_eq_flatMap (parse : String → String → Option Node)
    (rules : List ARule) (files : List FileInput) (config : RuleConfig) :
    analyzeFiles parse rules files config =
      files.flatMap (fun f => analyzeFile parse rules f config) := by
  unfold analyzeFiles
  rw [foldl_collect (fun f => analyzeFile parse rules f config) files []]
  simp

/-- A file whose parse fails contributes no issues. -/
theorem analyzeFile_parse_none (parse : String → String → Option Node)
    (rules : List ARule) (config : RuleConfig) (f : FileInput)
    (h : parse f.text f.path = none) :
    analyzeFile parse rules f config = [] := by
  unfold analyzeFile
  rw [h]

/-- On a parsed file the rules run in registration order; a rule whose
run throws contributes the empty list in its position. -/
theorem analyzeFile_parse_some (parse : String → String → Option Node)
    (rules : List ARule) (config : RuleConfig) (f : FileInput) (ast : Node)
    (h : parse f.text f.path = some ast) :
    analyzeFile parse rules f config =
      rules.flatMap (fun rule =>
        match rule.run ast f.path f.text config with
        | .ok ruleIssues => ruleIssues
        | .error _ => []) := by
  unfold analyzeFile
  rw [h]
  dsimp only
  have hfun :
      (fun (issues : List AnalysisIssue) (rule : ARule) =>
        match rule.run ast f.path f.text config with
        | .ok ruleIssues => issues ++ ruleIssues
        | .error _ => issues) =
      (fun (issues : List AnalysisIssue) (rule : ARule) =>
        issues ++
          match rule.run ast f.path f.text config with
          | .ok ruleIssues => ruleIssues
          | .error _ => []) := by
    funext issues rule
    cases rule.run ast f.path f.text config <;> simp
  rw [hfun, foldl_collect _ rules []]
  simp

/-! ## C5: per-file and per-rule failure isolation in `analyzeFiles` -/

/-- C5: for every input file sequence, (i) `analyzeFiles` is the
in-order concatenation of the per-file results, so one file's outcome
never disturbs another's and no failure escapes (the function is total:
parse failure and rule exceptions are absorbed below it); (ii) a file
whose parse fails contributes zero issues and analysis continues with
the other files; (iii) on a parsed file, every rule runs and a rule that
throws (returns `.error`) contributes zero issues while the remaining
rules' issues are still collected, in registration order. -/
theorem analyzeFiles_isolates_failures :
    (∀ (parse : String → String → Option Node) (rules : List ARule)
        (files : List FileInput) (config : RuleConfig),
      analyzeFiles parse rules files config =
        files.flatMap (fun f => analyzeFile parse rules f config)) ∧
    (∀ (parse : String → String → Option Node) (rules : List ARule)
        (config : RuleConfig) (f : FileInput),
      parse f.text f.path = none → analyzeFile parse rules f config = []) ∧
    (∀ (parse : String → String → Option Node) (rules : List ARule)
        (config : RuleConfig) (f : FileInput) (ast : Node),
      parse f.text f.path = some ast →
        analyzeFile parse rules f config =
          rules.flatMap (fun rule =>
            match rule.run ast f.path f.text config with
            | .ok ruleIssues => ruleIssues
            | .error _ => [])) :=
  ⟨analyzeFiles_eq_flatMap, analyzeFile_parse_none, analyzeFile_parse_some⟩

/-- Witness for C5: a file whose parse fails yields no issues, and a
file on which the only registered rule throws yields no issues either —
in both cases without `analyzeFile` raising. -/
theorem analyzeFiles_isolates_failures_witness :
    analyzeFile (fun _ _ => none) [] ⟨"a.js", "bad("⟩ DEFAULT_CONFIG = [] ∧
    analyzeFile (fun _ _ => some (fileProgram []))
      [⟨fun _ _ _ _ => .error "rule crashed"⟩] ⟨"b.js", ""⟩ DEFAULT_CONFIG = [] := by
  constructor
  · exact analyzeFiles_isolates_failures.2.1 _ _ _ _ rfl
  · have h := analyzeFiles_isolates_failures.2.2
      (fun _ _ => some (fileProgram [])) [⟨fun _ _ _ _ => .error "rule crashed"⟩]
      DEFAULT_CONFIG ⟨"b.js", ""⟩ (fileProgram []) rfl
    simpa using h

/-! ## C6: deterministic output ordering of `analyzeFiles` -/

/-- C6: with the concrete four-rule registry, the flat issue list is the
concatenation, in input-file order, of each parsed file's issues, and
within one file the issues appear in the fixed registration order
unusedVars, longFunction, asyncNoTryCatch, deepNesting, each rule's
block in its own emission order. -/
theorem analyzeFiles_ordering :
    ∀ (parse : String → String → Option Node) (files : List FileInput)
      (config : RuleConfig),
      analyzeFiles parse RULES files config =
        files.flatMap (fun f =>
          match parse f.text f.path with
          | none => []
          | some ast =>
              unusedVars_run f.path ast ++
                (longFunction_run f.path config ast ++
                  (asyncNoTryCatch_run f.path ast ++
                    deepNesting_run f.path config ast))) := by
  intro parse files config
  rw [analyzeFiles_eq_flatMap parse RULES files config]
  congr 1
  funext f
  cases h : parse f.text f.path with
  | none => rw [analyzeFile_parse_none parse RULES config f h]
  | some ast =>
      rw [analyzeFile_parse_some parse RULES config f ast h]
      simp [RULES, unusedVarsRule, longFunctionRule, asyncNoTryCatchRule, deepNestingRule]

/-! ## C8: the trimmer is a no-op (hence idempotent) on fitting input -/

/-- C8: with `maxChars = maxTokens * 4`, a text that already fits is
returned unchanged, and trimming is idempotent on it. -/
theorem trimForTokens_noop_idempotent :
    ∀ (text : String) (maxTokens : Nat), text.length ≤ maxTokens * 4 →
      trimForTokens text maxTokens = text ∧
        trimForTokens (trimForTokens text maxTokens) maxTokens =
          trimForTokens text maxTokens := by
  intro text maxTokens h
  have h1 : trimForTokens text maxTokens = text := by
    unfold trimForTokens
    simp [h]
  exact ⟨h1, by rw [h1, h1]⟩

/-- Witness for C8 at `text = "abc"`, `maxTokens = 1`. -/
theorem trimForTokens_noop_idempotent_witness :
    ("abc" : String).length ≤ 1 * 4 ∧
      trimForTokens "abc" 1 = "abc" ∧
        trimForTokens (trimForTokens "abc" 1) 1 = trimForTokens "abc" 1 := by
  have h : ("abc" : String).length ≤ 1 * 4 := by decide
  exact ⟨h, trimForTokens_noop_idempotent "abc" 1 h⟩

/-! ## C10: `buildContext` reorders the caller's issue array -/

/-- C10: the caller's issue array, after `buildContext` returns, has
been sorted in place by severity rank then file path (the `.sort(...)`
inside `getTopIssues` mutates its receiver), and that sorted order
differs in general from the insertion order, as the concrete
warning-then-error input shows. -/
theorem buildContext_sorts_caller_array :
    (∀ (files : List FileInput) (issues : List AnalysisIssue)
        (dependencies : List String),
      (buildContext files issues dependencies).2 = sortIssues issues) ∧
    sortIssues
        [{ file := "a.ts", line := 1, column := 0, ruleId := "unused-vars",
           message := "m1", severity := .warning },
         { file := "b.ts", line := 2, column := 0, ruleId := "async-no-try-catch",
           message := "m2", severity := .error }] ≠
      [{ file := "a.ts", line := 1, column := 0, ruleId := "unused-vars",
         message := "m1", severity := .warning },
       { file := "b.ts", line := 2, column := 0, ruleId := "async-no-try-catch",
         message := "m2", severity := .error }] := by
  constructor
  · intro files issues dependencies
    rfl
  · decide

/-! ## C3: the long-function rule (corrected at threshold 0) -/

/-- Counterexample to C3 as stated: with a configured threshold of 0,
the 50-line `function big` satisfies `endLine - startLine + 1 = 50 > 0`,
so the claim demands exactly one `long-function` issue — but
`maxFunctionLines || 80` turns the falsy 0 into the default 80 and the
rule emits none.  The file contains exactly one function-like node and
its line count is 50. -/
theorem longFunction_zero_threshold_counterexample :
    longFunction_run "test.js"
        { maxFunctionLines := some 0, maxNestingDepth := some 4 } longFnFile = [] ∧
      ((longFnFile.visits.map Visit.node).filter
          (fun n => isFunctionLikeType n.ty)).length = 1 ∧
      ((longFnFile.visits.map Visit.node).filter
          (fun n => isFunctionLikeType n.ty)).filterMap
          (fun n => n.loc.map (fun l => l.endLine - l.line + 1)) = [50] := by
  refine ⟨by decide, by decide, by decide⟩

/-- C3 (amended): provided the configured `maxFunctionLines` is at least
1 (a configured 0 is falsy in JavaScript and falls back to the default
80), the rule's output is exactly one warning issue per function-like
node whose `endLine - startLine + 1` exceeds the threshold — in
traversal order, named after the function (or its key name, or
"anonymous function") with the actual line count and the threshold in
the message — and zero issues per function-like node at or under the
threshold. -/
theorem longFunction_run_characterisation :
    ∀ (filePath : String) (config : RuleConfig) (t : Node) (m : Nat),
      config.maxFunctionLines = some m → 1 ≤ m →
      longFunction_run filePath config t =
        ((t.visits.map Visit.node).filter (fun n => isFunctionLikeType n.ty)).filterMap
          (longFunctionExpected filePath m) := by
  intro filePath config t m hm hpos
  unfold longFunction_run
  rw [hm]
  have hdef : orDefault (some m) 80 = m := by
    unfold orDefault
    have hne : ¬ m = 0 := by omega
    simp [hne]
  rw [hdef, List.filterMap_filter, List.filterMap_map]
  rfl

/-- Witness for C3 at the default config (threshold 80) on the 50-line
function file: the threshold hypotheses hold and the characterisation
instance follows; the rule's output there evaluates to no issues, the
50-line function being under the 80-line threshold. -/
theorem longFunction_run_characterisation_witness :
    DEFAULT_CONFIG.maxFunctionLines = some 80 ∧ 1 ≤ 80 ∧
      longFunction_run "test.js" DEFAULT_CONFIG longFnFile =
        ((longFnFile.visits.map Visit.node).filter
            (fun n => isFunctionLikeType n.ty)).filterMap
          (longFunctionExpected "test.js" 80) ∧
      longFunction_run "test.js" DEFAULT_CONFIG longFnFile = [] := by
  refine ⟨rfl, by decide, ?_, by decide⟩
  exact longFunction_run_characterisation "test.js" DEFAULT_CONFIG longFnFile 80 rfl (by decide)

/-! ## C7: `topIssues` is the 5-prefix of a stable severity/file sort -/

/-- Inserting an element into a list moves it past members of strictly
smaller sort keys only, so any filter selecting a single comparator
equivalence class sees the inserted element in front of the class. -/
theorem filter_orderedInsert_class (p : AnalysisIssue → Bool)
    (hp : ∀ a b, p a = true → p b = true → issueLe a b) (x : AnalysisIssue) :
    ∀ l, (List.orderedInsert issueLe x l).filter p =
      if p x then x :: l.filter p else l.filter p
  | [] => by
      by_cases hx : p x <;> simp [List.orderedInsert, List.filter_cons, hx]
  | y :: l => by
      by_cases hxy : issueLe x y
      · simp only [List.orderedInsert, if_pos hxy]
        by_cases hx : p x <;> simp [List.filter_cons, hx]
      · simp only [List.orderedInsert, if_neg hxy]
        rw [List.filter_cons]
        by_cases hy : p y
        · have hx : p x = false := by
            by_contra hx
            exact hxy (hp x y (by simpa using hx) hy)
          rw [filter_orderedInsert_class p hp x l]
          simp [List.filter_cons, hx, hy]
        · rw [filter_orderedInsert_class p hp x l]
          by_cases hx : p x <;> simp [List.filter_cons, hx, hy]

/-- The insertion sort used to model `Array.prototype.sort` is stable:
it permutes nothing within one comparator equivalence class. -/
theorem filter_insertionSort_class (p : AnalysisIssue → Bool)
    (hp : ∀ a b, p a = true → p b = true → issueLe a b) :
    ∀ l, (List.insertionSort issueLe l).filter p = l.filter p
  | [] => rfl
  | a :: l => by
      simp only [List.insertionSort]
      rw [filter_orderedInsert_class p hp a _, filter_insertionSort_class p hp l]
      by_cases ha : p a <;> simp [List.filter_cons, ha]

/-- A zero severity rank means `error` severity. -/
theorem severityRank_eq_zero {s : Severity} (h : severityRank s = 0) :
    s = .error := by
  cases s <;> simp [severityRank] at h ⊢

/-- C7: the `topIssues` field of the built context is the 5-element
prefix of the stable sort of the full issue list by severity rank
(error 0 < warning 1 < info 2) with lexicographic file-path tie-break:
it equals `take 5` of `sortIssues`, has length at most 5, and
`sortIssues` is a permutation of the input, sorted under the
comparator's order, and stable (every comparator equivalence class —
fixed rank and file — keeps its input order); consequently every
error-severity issue in `topIssues` precedes every warning- or
info-severity one. -/
theorem buildContext_topIssues_spec :
    ∀ (files : List FileInput) (issues : List AnalysisIssue)
      (dependencies : List String),
      (buildContext files issues dependencies).1.topIssues = (sortIssues issues).take 5 ∧
      (buildContext files issues dependencies).1.topIssues.length ≤ 5 ∧
      (sortIssues issues).Perm issues ∧
      List.Sorted issueLe (sortIssues issues) ∧
      (∀ (r : Nat) (fp : String),
        (sortIssues issues).filter
            (fun i => severityRank i.severity == r && i.file == fp) =
          issues.filter (fun i => severityRank i.severity == r && i.file == fp)) ∧
      List.Pairwise (fun a b => b.severity = .error → a.severity = .error)
        (buildContext files issues dependencies).1.topIssues := by
  intro files issues dependencies
  have htop : (buildContext files issues dependencies).1.topIssues =
      (sortIssues issues).take 5 := rfl
  refine ⟨htop, ?_, ?_, ?_, ?_, ?_⟩
  · rw [htop, List.length_take]
    exact min_le_left _ _
  · exact List.perm_insertionSort issueLe issues
  · exact List.sorted_insertionSort issueLe issues
  · intro r fp
    apply filter_insertionSort_class
    intro a b ha hb
    simp only [Bool.and_eq_true, beq_iff_eq] at ha hb
    exact Or.inr ⟨ha.1.trans hb.1.symm, le_of_eq (ha.2.trans hb.2.symm)⟩
  · rw [htop]
    have hs : List.Pairwise issueLe ((sortIssues issues).take 5) :=
      List.Pairwise.sublist (List.take_sublist 5 (sortIssues issues))
        (List.sorted_insertionSort issueLe issues)
    refine hs.imp ?_
    intro a b hab hb
    rcases hab with hlt | ⟨heq, _⟩
    · rw [hb] at hlt
      simp [severityRank] at hlt
    · exact severityRank_eq_zero (by rw [heq, hb]; rfl)

/-! ## C4: the async-without-recovery rule -/

theorem hasTryChildren_append :
    ∀ (a b : List (Slot × Node)),
      hasTryChildren (a ++ b) = (hasTryChildren a || hasTryChildren b)
  | [], b => by rw [List.nil_append, hasTryChildren]; simp
  | (s, c) :: a, b => by
      rw [List.cons_append, hasTryChildren, hasTryChildren,
        hasTryChildren_append a b, Bool.or_assoc]

/-- Any try-statement node is found by the sub-scan. -/
theorem hasTryNode_of_try (tn : Node) (h : tn.ty = .TryStatement) :
    hasTryNode tn = true := by
  cases tn with
  | mk ty nm a l cs =>
      simp only [Node.ty] at h
      rw [hasTryNode]
      simp [h]

/-- A function-like kind is never the try-statement kind. -/
theorem functionLike_ne_try (t : NodeType) (h : isFunctionLikeType t = true) :
    (t == NodeType.TryStatement) = false := by
  cases t <;> simp_all [isFunctionLikeType]

/-- The body child of a built function node is its block body. -/
theorem bodyChild_mkFn (ty : NodeType) (nm : Option String) (a : Bool)
    (loc : Option Loc) (ps bodyStmts : List Node) :
    (mkFn ty nm a loc ps bodyStmts).bodyChild = some (blockOf bodyStmts) := by
  unfold mkFn Node.bodyChild Node.children
  have h1 : (ps.map (fun p => (Slot.param, p))).find? (fun p => p.1 == Slot.body) = none := by
    rw [List.find?_eq_none]
    intro x hx
    obtain ⟨p, _, rfl⟩ := List.mem_map.mp hx
    simp
  rw [List.find?_append, h1]
  rfl

/-- `checkForTryCatch` in terms of the claim's recovery predicate. -/
theorem checkForTryCatch_eq (fp : String) (n : Node) :
    checkForTryCatch fp n =
      match n.loc with
      | some l => if hasDirectRecovery n then none else some (asyncIssueOf fp n l)
      | none => none := by
  unfold checkForTryCatch
  cases hl : n.loc with
  | none => rfl
  | some l =>
      dsimp only
      have hbool :
          (match n.bodyChild with
            | some b => if b.ty == NodeType.BlockStatement then hasTryChildren n.children else false
            | none => false) = hasDirectRecovery n := by
        unfold hasDirectRecovery
        cases n.bodyChild with
        | none => simp
        | some b => by_cases hb : b.ty == NodeType.BlockStatement <;> simp [hb]
      rw [hbool]
      rfl

/-- C4: (i) the rule's output is exactly one warning per asynchronous
function-like node without a directly-enclosing recovery construct
(naming the function, or "async function" when anonymous) and zero per
node that has one; (ii) adding a try statement directly to the
function's block body always makes the recovery predicate hold, so the
issue disappears; (iii) a try statement only inside a nested
function-like child never counts, whatever that child contains. -/
theorem asyncNoTryCatch_characterisation :
    (∀ (filePath : String) (t : Node),
      asyncNoTryCatch_run filePath t = asyncExpected filePath t) ∧
    (∀ (ty : NodeType) (nm : Option String) (a : Bool) (loc : Option Loc)
        (ps pre post : List Node) (tn : Node), tn.ty = .TryStatement →
      hasDirectRecovery (mkFn ty nm a loc ps (pre ++ tn :: post)) = true) ∧
    (∀ (ty : NodeType) (nm : Option String) (a : Bool) (loc : Option Loc)
        (inner : Node), isFunctionLikeType inner.ty = true →
      hasDirectRecovery (mkFn ty nm a loc [] [inner]) = false) := by
  refine ⟨?_, ?_, ?_⟩
  · intro filePath t
    unfold asyncNoTryCatch_run asyncExpected
    rw [List.filterMap_map]
    congr 1
    funext v
    by_cases hc : isFunctionLikeType v.node.ty && v.node.isAsync
    · simp only [Function.comp, hc, if_pos]
      exact checkForTryCatch_eq filePath v.node
    · simp only [Function.comp, hc]
      rfl
  · intro ty nm a loc ps pre post tn htn
    unfold hasDirectRecovery
    rw [bodyChild_mkFn]
    dsimp only
    have hblock : (blockOf (pre ++ tn :: post)).ty == NodeType.BlockStatement := by
      unfold blockOf
      rfl
    rw [hblock]
    have htry : hasTryChildren (mkFn ty nm a loc ps (pre ++ tn :: post)).children = true := by
      unfold mkFn Node.children
      rw [hasTryChildren_append]
      have hblk : hasTryNode (blockOf (pre ++ tn :: post)) = true := by
        unfold blockOf
        rw [hasTryNode]
        simp only [List.map_append, List.map_cons]
        rw [hasTryChildren_append, hasTryChildren]
        simp [hasTryNode_of_try tn htn, isFunctionLikeType]
      rw [hasTryChildren, hasTryChildren]
      simp [hblk]
    rw [htry]
    rfl
  · intro ty nm a loc inner hinner
    unfold hasDirectRecovery
    rw [bodyChild_mkFn]
    dsimp only
    have hinnerNode : hasTryNode inner = false := by
      cases inner with
      | mk ti ni ai li ci =>
          simp only [Node.ty] at hinner
          rw [hasTryNode]
          rw [functionLike_ne_try ti hinner]
          simp [hinner]
    have htry : hasTryChildren (mkFn ty nm a loc [] [inner]).children = false := by
      unfold mkFn Node.children blockOf
      simp only [List.map_nil, List.nil_append, List.map_cons]
      rw [hasTryChildren, hasTryChildren, hasTryNode]
      simp [hasTryChildren, hinnerNode, isFunctionLikeType]
    rw [htry]
    simp

/-- Witness for C4: the characterisation instantiated on the file of
`async function g() { }` (one unrecovered async function, one issue); a
try appended directly to a block body satisfies the recovery predicate;
a try hidden inside a nested function expression does not. -/
theorem asyncNoTryCatch_characterisation_witness :
    asyncNoTryCatch_run "t.js"
        (fileProgram [mkFn .FunctionDeclaration (some "g") true (some ⟨1, 0, 3⟩) [] []]) =
      asyncExpected "t.js"
        (fileProgram [mkFn .FunctionDeclaration (some "g") true (some ⟨1, 0, 3⟩) [] []]) ∧
    asyncNoTryCatch_run "t.js"
        (fileProgram [mkFn .FunctionDeclaration (some "g") true (some ⟨1, 0, 3⟩) [] []]) =
      [{ file := "t.js", line := 1, column := 0, ruleId := "async-no-try-catch",
         message := "Async function \x27g\x27 should have try/catch error handling",
         severity := .warning }] ∧
    hasDirectRecovery
        (mkFn .FunctionDeclaration (some "g") true (some ⟨1, 0, 3⟩) []
          ([] ++ Node.mk .TryStatement none false none [] :: [])) = true ∧
    hasDirectRecovery
        (mkFn .FunctionDeclaration (some "g") true (some ⟨1, 0, 3⟩) []
          [Node.mk .FunctionExpression none false none
            [(Slot.body, blockOf [Node.mk .TryStatement none false none []])]]) = false := by
  refine ⟨asyncNoTryCatch_characterisation.1 "t.js" _, by decide, ?_, ?_⟩
  · exact asyncNoTryCatch_characterisation.2.1 _ _ _ _ _ _ _ _ rfl
  · exact asyncNoTryCatch_characterisation.2.2 _ _ _ _ _ rfl

/-! ## C2: the deep-nesting rule on straight-line chains -/

theorem isNestingNode_of_chainKind {k : NodeType} (hk : k ∈ nestingChainKinds) :
    isNestingNode k = true := by
  fin_cases hk <;> rfl

/-- Folding the deep-nesting step function over the events of a chain
starting at depth `st.currentDepth + 1` leaves depth and stack as they
were and appends exactly the predicted issues. -/
theorem chainFold (filePath : String) (maxDepth : Nat) :
    ∀ (ks : List NodeType), (∀ k ∈ ks, k ∈ nestingChainKinds) →
      ∀ (line : Nat) (st : DeepState),
        List.foldl (deepStep filePath maxDepth) st (eventsNode (mkChain ks line)) =
          ⟨st.currentDepth, st.depthStack,
            st.issues ++ chainExpectedFrom filePath maxDepth st.currentDepth line ks⟩ := by
  intro ks
  induction ks with
  | nil =>
      intro _ line st
      simp [mkChain, eventsNode, eventsChildren, deepStep, isNestingNode, Node.ty,
        chainExpectedFrom]
  | cons k ks ih =>
      intro hks line st
      have hk : isNestingNode k = true :=
        isNestingNode_of_chainKind (hks k (by simp))
      have hrest : ∀ k' ∈ ks, k' ∈ nestingChainKinds := fun k' h' => hks k' (by simp [h'])
      simp only [mkChain, eventsNode, eventsChildren, List.append_nil, List.foldl_cons,
        List.foldl_append]
      have hstep1 :
          deepStep filePath maxDepth st
              (.enter (.mk k none false (some ⟨line, 0, line⟩)
                [(Slot.other, mkChain ks (line + 1))])) =
            ⟨st.currentDepth + 1,
              (Node.mk k none false (some ⟨line, 0, line⟩)
                [(Slot.other, mkChain ks (line + 1))], st.currentDepth + 1) :: st.depthStack,
              st.issues ++
                (if maxDepth < st.currentDepth + 1 then
                  [chainIssueAt filePath maxDepth k line (st.currentDepth + 1)]
                else [])⟩ := by
        simp only [deepStep, Node.ty, Node.loc, hk, if_pos]
        by_cases hd : st.currentDepth + 1 > maxDepth <;>
          simp [hd, chainIssueAt]
      rw [hstep1, ih hrest (line + 1) _]
      simp only [List.foldl_cons, List.foldl_nil]
      have hstep2 :
          deepStep filePath maxDepth
              ⟨st.currentDepth + 1,
                (Node.mk k none false (some ⟨line, 0, line⟩)
                  [(Slot.other, mkChain ks (line + 1))], st.currentDepth + 1) :: st.depthStack,
                (st.issues ++
                    (if maxDepth < st.currentDepth + 1 then
                      [chainIssueAt filePath maxDepth k line (st.currentDepth + 1)]
                    else [])) ++
                  chainExpectedFrom filePath maxDepth (st.currentDepth + 1) (line + 1) ks⟩
              (.exited (.mk k none false (some ⟨line, 0, line⟩)
                [(Slot.other, mkChain ks (line + 1))])) =
            ⟨st.currentDepth, st.depthStack,
              (st.issues ++
                  (if maxDepth < st.currentDepth + 1 then
                    [chainIssueAt filePath maxDepth k line (st.currentDepth + 1)]
                  else [])) ++
                chainExpectedFrom filePath maxDepth (st.currentDepth + 1) (line + 1) ks⟩ := by
        simp only [deepStep, Node.ty, hk, if_pos]
        rw [Node.beq_self]
        simp
      rw [hstep2, chainExpectedFrom]
      simp [List.append_assoc]

/-- `chainExpectedFrom` as a filterMap over level indices. -/
theorem chainExpectedFrom_eq_range (filePath : String) (maxDepth : Nat) :
    ∀ (ks : List NodeType) (d line : Nat),
      chainExpectedFrom filePath maxDepth d line ks =
        (List.range ks.length).filterMap (fun j =>
          if maxDepth < d + j + 1 then
            some (chainIssueAt filePath maxDepth (ks.getD j .Other) (line + j) (d + j + 1))
          else none) := by
  intro ks
  induction ks with
  | nil => intro d line; simp [chainExpectedFrom]
  | cons k ks ih =>
      intro d line
      rw [chainExpectedFrom, ih (d + 1) (line + 1)]
      rw [List.length_cons, List.range_succ_eq_map, List.filterMap_cons,
        List.filterMap_map]
      have hfun :
          ((fun j =>
              if maxDepth < d + j + 1 then
                some (chainIssueAt filePath maxDepth ((k :: ks).getD j .Other)
                  (line + j) (d + j + 1))
              else none) ∘ Nat.succ) =
          (fun j =>
            if maxDepth < d + 1 + j + 1 then
              some (chainIssueAt filePath maxDepth (ks.getD j .Other)
                (line + 1 + j) (d + 1 + j + 1))
            else none) := by
        funext j
        simp only [Function.comp, Nat.succ_eq_add_one, List.getD_cons_succ]
        have e0 : d + (j + 1) + 1 = d + 1 + j + 1 := by omega
        have e2 : line + (j + 1) = line + 1 + j := by omega
        rw [e0, e2]
      rw [hfun]
      simp only [Nat.add_zero, List.getD_cons_zero]
      by_cases h0 : maxDepth < d + 1
      · simp [h0]
      · simp [h0]

/-- The chain prediction starting from depth 0, line 1 is `chainExpected`. -/
theorem chainExpectedFrom_eq_chainExpected (filePath : String) (maxDepth : Nat)
    (ks : List NodeType) :
    chainExpectedFrom filePath maxDepth 0 1 ks = chainExpected filePath maxDepth ks := by
  rw [chainExpectedFrom_eq_range]
  unfold chainExpected
  apply List.filterMap_congr
  intro j _
  have e1 : 0 + j + 1 = j + 1 := by omega
  have e2 : 1 + j = j + 1 := by omega
  rw [e1, e2]

/-- Length of the chain prediction. -/
theorem chainExpectedFrom_length (filePath : String) (maxDepth : Nat) :
    ∀ (ks : List NodeType) (d line : Nat),
      (chainExpectedFrom filePath maxDepth d line ks).length =
        ks.length - (maxDepth - d) := by
  intro ks
  induction ks with
  | nil => intro d line; simp [chainExpectedFrom]
  | cons k ks ih =>
      intro d line
      rw [chainExpectedFrom, List.length_append, ih (d + 1) (line + 1)]
      by_cases h : maxDepth < d + 1 <;> simp [h] <;> omega

/-- Counterexample to C2 as stated: a one-node chain (a single if
statement, `D = 1`) against a configured threshold `T = 0` must by the
claim produce `D - T = 1` issue, but `maxNestingDepth || 4` turns the
falsy 0 into the default 4 and the rule emits none. -/
theorem deepNesting_zero_threshold_counterexample :
    deepNesting_run "test.js"
        { maxFunctionLines := some 80, maxNestingDepth := some 0 }
        (fileProgram [mkChain [.IfStatement] 1]) = [] ∧
      (1 : Nat) - 0 ≠ 0 := by
  exact ⟨by decide, by decide⟩

/-- C2 (amended): provided the configured threshold `T` is at least 1 (a
configured 0 is falsy in JavaScript and falls back to the default 4),
a straight-line chain of `D` control-flow nodes with `D > T` produces
exactly `D - T` warning issues, one per level beyond the threshold,
located at that level's node and citing its human-readable kind label
together with its entry depth. -/
theorem deepNesting_chain_characterisation :
    ∀ (filePath : String) (config : RuleConfig) (T : Nat) (ks : List NodeType),
      config.maxNestingDepth = some T → 1 ≤ T →
      (∀ k ∈ ks, k ∈ nestingChainKinds) → T < ks.length →
      deepNesting_run filePath config (fileProgram [mkChain ks 1]) =
          chainExpected filePath T ks ∧
        (chainExpected filePath T ks).length = ks.length - T := by
  intro filePath config T ks hT hpos hks hlen
  have hdef : orDefault (some T) 4 = T := by
    unfold orDefault
    have hne : ¬ T = 0 := by omega
    simp [hne]
  constructor
  · unfold deepNesting_run
    rw [hT, hdef]
    show (List.foldl (deepStep filePath T) ⟨0, [], []⟩
        (Node.events (fileProgram [mkChain ks 1]))).issues = _
    unfold fileProgram Node.events
    simp only [List.map_cons, List.map_nil, eventsNode, eventsChildren,
      List.append_nil, List.foldl_cons, List.foldl_append]
    rw [show ∀ st, List.foldl (deepStep filePath T) st [] = st from fun _ => rfl]
    have houter1 : ∀ (st : DeepState) (nm : Option String) (a : Bool)
        (l : Option Loc) (cs : List (Slot × Node)),
        deepStep filePath T st (.enter (.mk .Other nm a l cs)) = st := by
      intro st nm a l cs
      simp [deepStep, Node.ty, isNestingNode]
    have houter2 : ∀ (st : DeepState) (nm : Option String) (a : Bool)
        (l : Option Loc) (cs : List (Slot × Node)),
        deepStep filePath T st (.exited (.mk .Other nm a l cs)) = st := by
      intro st nm a l cs
      simp [deepStep, Node.ty, isNestingNode]
    rw [houter1, houter1]
    rw [chainFold filePath T ks hks 1 ⟨0, [], []⟩]
    rw [houter2, houter2]
    simpa using chainExpectedFrom_eq_chainExpected filePath T ks
  · rw [← chainExpectedFrom_eq_chainExpected filePath T ks,
      chainExpectedFrom_length]
    omega

/-- Witness for C2 on a three-deep if chain against threshold 1: two
issues, at the depth-2 and depth-3 nodes. -/
theorem deepNesting_chain_characterisation_witness :
    (RuleConfig.mk (some 80) (some 1)).maxNestingDepth = some 1 ∧
    (deepNesting_run "test.js" (RuleConfig.mk (some 80) (some 1))
        (fileProgram [mkChain [.IfStatement, .IfStatement, .IfStatement] 1]) =
      chainExpected "test.js" 1 [.IfStatement, .IfStatement, .IfStatement] ∧
    (chainExpected "test.js" 1 [.IfStatement, .IfStatement, .IfStatement]).length = 3 - 1) ∧
    deepNesting_run "test.js" (RuleConfig.mk (some 80) (some 1))
        (fileProgram [mkChain [.IfStatement, .IfStatement, .IfStatement] 1]) =
      [{ file := "test.js", line := 2, column := 0, ruleId := "deep-nesting",
         message := "If statement has nesting depth 2 (max 1)", severity := .warning },
       { file := "test.js", line := 3, column := 0, ruleId := "deep-nesting",
         message := "If statement has nesting depth 3 (max 1)", severity := .warning }] := by
  refine ⟨rfl, ?_, by decide⟩
  exact deepNesting_chain_characterisation "test.js" (RuleConfig.mk (some 80) (some 1))
    1 [.IfStatement, .IfStatement, .IfStatement] rfl (by decide) (by decide) (by decide)

/-! ## C1: the unused-binding rule loses every parameter binding -/

/-- C1 (code bug): on `function f(a) { }` the parameter `a` is a
declared, non-underscore-prefixed binding that is never referenced, so
the claim — and the repository's own documentation, which lists "unused
function parameters" among the rule's detections, with the demo file
marking an unused parameter as an expected issue — demands exactly one
`unused-vars` warning at its declaration.  The rule emits none: as the
second conjunct shows, the rule registers the binding `a` but its
`Identifier` pass, whose skip-list covers only variable-declarator
targets, function names, property keys and member-access properties,
counts the parameter's own declaration occurrence as a use and flips it
to `used` before reporting. -/
theorem unusedVars_unused_parameter_bug :
    unusedVars_run "test.js" unusedParamFile = [] ∧
      (unusedParamFile.visits.foldl unusedStep []).map (fun p => (p.1, p.2.used)) =
        [("a", true)] := by
  exact ⟨by decide, by decide⟩

/-! ## C9: the trimmer's output-length bound and hard cut -/

theorem jsSubstring_length (s : String) (n : Nat) :
    (jsSubstring s n).length = min n s.length := by
  cases s with
  | mk data => simp [jsSubstring, String.length, String.toList, List.length_take]

/-- C9: on over-budget input (`text.length > maxChars` with
`maxChars = maxTokens * 4`) the trimmed output never exceeds `maxChars`
plus the fixed truncation-marker overhead, and whenever the reassembled
structural abridgement itself still exceeds `maxChars` the output is
exactly that abridgement hard-cut to `maxChars - 20` characters with the
truncation marker appended. -/
theorem trimForTokens_length_bound :
    ∀ (text : String) (maxTokens : Nat), maxTokens * 4 < text.length →
      (trimForTokens text maxTokens).length ≤ maxTokens * 4 + truncationMarker.length ∧
        (maxTokens * 4 < (reassemble text).length →
          trimForTokens text maxTokens =
            jsSubstring (reassemble text) (maxTokens * 4 - 20) ++ truncationMarker) := by
  intro text maxTokens h
  have hnofit : ¬ text.length ≤ maxTokens * 4 := by omega
  constructor
  · unfold trimForTokens
    simp only [hnofit, if_false, if_neg, not_false_iff]
    by_cases hr : (reassemble text).length > maxTokens * 4
    · rw [if_pos hr, String.length_append, jsSubstring_length]
      have := min_le_left (maxTokens * 4 - 20) (reassemble text).length
      omega
    · rw [if_neg hr]
      omega
  · intro hr
    unfold trimForTokens
    simp only [hnofit, if_neg, not_false_iff]
    rw [if_pos hr]

/-- Witness for C9 on a 27-character comment line against a 1-unit
budget (`maxChars = 4`): the reassembled abridgement keeps the comment
(27 characters, still over budget), so the output is the hard cut to
`4 - 20 = 0` characters plus the 22-character marker, within the bound
`4 + 22`. -/
theorem trimForTokens_length_bound_witness :
    1 * 4 < ("// hello world comment line" : String).length ∧
      (trimForTokens "// hello world comment line" 1).length ≤
        1 * 4 + truncationMarker.length ∧
      (1 * 4 < (reassemble "// hello world comment line").length →
        trimForTokens "// hello world comment line" 1 =
          jsSubstring (reassemble "// hello world comment line") (1 * 4 - 20) ++
            truncationMarker) ∧
      trimForTokens "// hello world comment line" 1 = "\n\n// ... truncated ..." := by
  have h : 1 * 4 < ("// hello world comment line" : String).length := by decide
  have hmain := trimForTokens_length_bound "// hello world comment line" 1 h
  exact ⟨h, hmain.1, hmain.2, by decide⟩

end Deburger
